import Mathlib

/-!
# Verification of the agentic-tooling dispatch engine

Shallow embedding of the core of the `agentic-tooling` repository:
the shell/process gateway (`runDocker` in `scripts/cli.ts`), refusal
detection and the one-shot fallback retry (`detectRefusal`, `main`),
tool harvesting (`collectTools`), the job ledger (`handleSubmit`,
`updateTask` in `src/ask-agent.tsx`), the submission/runner event order,
the Daytona remote-sandbox lifecycle (`scripts/daytona-cli.ts` `main`),
and the chunked base64 file-transfer protocol (`pushFile`/`pullFile`).

Bytes are modelled as natural numbers below 256, strings as Lean
`String`s (the sources are ASCII, where JavaScript `toLowerCase`
agrees with `Char.toLower`), and asynchronous event sequences as
explicit traces.
-/

/-! ## String helpers modelling JavaScript primitives -/

/-- JavaScript `hay.includes(needle)`: substring containment at any
position, as a scan over all suffixes. -/
def strIncludes (hay needle : List Char) : Bool :=
  hay.tails.any fun t => needle.isPrefixOf t

/-- JavaScript `String.prototype.includes` on Lean strings. -/
def jsIncludes (hay needle : String) : Bool :=
  strIncludes hay.data needle.data

/-- JavaScript `String.prototype.endsWith`. -/
def jsEndsWith (s suffix : String) : Bool :=
  suffix.data.isSuffixOf s.data

/-- JavaScript `String.prototype.toLowerCase` on the ASCII strings the
source uses, as a character list. -/
def toLowerData (s : String) : List Char :=
  s.data.map Char.toLower

/-! ## Shell/Process Gateway: `runDocker` (scripts/cli.ts lines 126-196,
src/unnamed/part_001 lines 188-253)

`runDocker` spawns the container process, accumulates stdout/stderr into
`output`, arms a timer that sends SIGTERM after `timeout` milliseconds,
and resolves from the `close` or `error` event handler.  The child's
behaviour is modelled by `ProcFate`: either the `close` event fires at
time `closeAt` with Node's `code` argument (`none` when the process was
killed by a signal and has no numeric exit code), or the `error` event
fires for a spawn failure. -/

/-- The value `runDocker` resolves with: `{ exitCode, output }`. -/
structure RunResult where
  exitCode : Int
  output : String
deriving DecidableEq, Repr

/-- How the spawned child process ends. -/
inductive ProcFate
  | closed (closeAt : Nat) (code : Option Int)
  | errored (msg : String)

/-- JavaScript `code || 0` on the nullable numeric `code` of the
`close` event: `null` and `0` are falsy and give `0`. -/
def jsOrZero : Option Int → Int
  | none => 0
  | some c => if c = 0 then 0 else c

/-- `runDocker`, resolved: given the per-attempt timeout, the child's
fate and the accumulated output text, returns the resolved
`RunResult` together with whether the SIGTERM kill was sent (the timer
fires iff the close event has not yet cleared it, i.e. iff
`timeout ≤ closeAt`; a spawn `error` clears the timer immediately). -/
def runDocker (timeoutMs : Nat) (fate : ProcFate) (output : String) :
    RunResult × Bool :=
  match fate with
  | .closed closeAt code =>
      ({ exitCode := jsOrZero code, output := output },
       decide (timeoutMs ≤ closeAt))
  | .errored msg =>
      ({ exitCode := 1, output := output ++ "\nError: " ++ msg }, false)

/-- End of `main` (src/unnamed/part_001 lines 309-314, and the runner of
src/ask-agent.tsx lines 360-375): the recorded terminal status is
`completed` iff the final exit code is `0`, and tool harvesting
(`collectTools`) runs exactly in that case. -/
def jobOutcome (r : RunResult) : String × Bool :=
  ((if r.exitCode = 0 then "completed" else "failed"),
   decide (r.exitCode = 0))

/-! ## Refusal detection (scripts/cli.ts lines 98-124) -/

/-- The fixed refusal signature list of `scripts/cli.ts` /
`src/unnamed/part_001`. -/
def REFUSAL_PATTERNS : List String :=
  ["I can't help",
   "I cannot help",
   "I'm unable to",
   "I am unable to",
   "I can't assist",
   "I cannot assist",
   "against my guidelines",
   "I'm not able to",
   "I am not able to",
   "I won't be able",
   "I will not be able",
   "not something I can help with",
   "I'm sorry, but I can't",
   "I apologize, but I cannot",
   "need to decline",
   "I should not help",
   "I shouldn't help",
   "I must decline",
   "cannot fulfill this request",
   "can't fulfill this request"]

/-- `detectRefusal`: lower-case the output and test substring
containment of each lower-cased signature. -/
def detectRefusal (output : String) : Bool :=
  REFUSAL_PATTERNS.any fun pat => strIncludes (toLowerData output) (toLowerData pat)

/-! ## Execution driver: `main` (src/unnamed/part_001 lines 286-315)

`main` runs the primary model, and re-runs once with the fallback model
exactly when `retryModelName` is truthy (a non-empty string) and the
primary output matches a refusal signature.  `runOf` is the oracle for
what `runDocker` returns for a given model id. -/

/-- The attempted model ids, in order, and the final result. -/
def mainAttempts (modelName retryModelName : String)
    (runOf : String → RunResult) : List String × RunResult :=
  let r1 := runOf ("openrouter/" ++ modelName)
  if retryModelName ≠ "" ∧ detectRefusal r1.output = true then
    (["openrouter/" ++ modelName, "openrouter/" ++ retryModelName],
     runOf ("openrouter/" ++ retryModelName))
  else
    (["openrouter/" ++ modelName], r1)

/-! ## Tool harvesting: `collectTools` (src/unnamed/part_001 lines
158-186, scripts/cli.ts lines 484-518)

The workspace directory listing is a list of named entries; the tool
store is an association list from base filename to content, looked up
with `List.lookup` (first binding wins, like a directory). -/

/-- A workspace directory entry as `collectTools` sees it. -/
structure WorkspaceFile where
  name : String
  content : String
  isFile : Bool
deriving DecidableEq

/-- The tool store: base filename ↦ file content. -/
abbrev ToolStore := List (String × String)

def toolExtensions : List String := [".sh", ".ts", ".js", ".py"]

def excludePatterns : List String := [".runner-", "node_modules", ".git", ".agentic"]

/-- `excludePatterns.some((p) => file.includes(p))`. -/
def isExcluded (name : String) : Bool :=
  excludePatterns.any fun p => jsIncludes name p

/-- `toolExtensions.some((ext) => file.endsWith(ext))`. -/
def isToolFile (name : String) : Bool :=
  toolExtensions.any fun ext => jsEndsWith name ext

/-- One iteration of the `collectTools` loop: skip excluded names, skip
non-tool extensions, skip non-files, skip names already present in the
store (`fs.existsSync(destPath)`), otherwise copy the file in. -/
def collectToolsStep (store : ToolStore) (f : WorkspaceFile) : ToolStore :=
  if isExcluded f.name then store
  else if !(isToolFile f.name) then store
  else if !f.isFile then store
  else if (store.lookup f.name).isSome then store
  else store ++ [(f.name, f.content)]

/-- `collectTools`: fold the loop over the directory listing. -/
def collectTools (workspace : List WorkspaceFile) (store : ToolStore) : ToolStore :=
  workspace.foldl collectToolsStep store

/-! ## Job ledger (src/ask-agent.tsx: `handleSubmit` lines 99-117,
`updateTask` inside the runner script, lines 179-192)

The ledger is the whole `.agentic-tasks.json` file.  Its observable
states: absent, valid JSON holding a task list, or malformed content
on which `JSON.parse` throws. -/

/-- One record of `.agentic-tasks.json`. -/
structure TaskRec where
  id : String
  agent : String
  prompt : String
  startTime : Nat
  status : String
  endTime : Option Nat
  logFile : String
deriving DecidableEq

/-- The ledger file on disk. -/
inductive LedgerFile
  | absent
  | wellFormed (tasks : List TaskRec)
  | malformed (raw : String)
deriving DecidableEq

/-- The task list `handleSubmit` starts from: `[]` when the file is
absent, the parsed list when well-formed, and — because the
`JSON.parse` failure is caught and only logged — still `[]` when the
content is malformed. -/
def readTasksForCreate : LedgerFile → List TaskRec
  | .absent => []
  | .wellFormed ts => ts
  | .malformed _ => []

/-- `handleSubmit`'s ledger create: push the new record and rewrite the
whole file unconditionally (`fs.writeFileSync`). -/
def createTask (file : LedgerFile) (rec : TaskRec) : LedgerFile :=
  .wellFormed (readTasksForCreate file ++ [rec])

/-- The in-place mutation `tasks[idx].status = status; if (endTime)
tasks[idx].endTime = endTime` (a zero `endTime` is falsy and is not
stored). -/
def applyUpdate (t : TaskRec) (status : String) (endTime : Option Nat) : TaskRec :=
  { t with
    status := status,
    endTime := match endTime with
               | some e => if e = 0 then t.endTime else some e
               | none => t.endTime }

/-- `updateTask(status, endTime)`: the whole body, the `JSON.parse`
included, sits inside one `try`; a parse failure is caught, logged and
nothing is written, so a malformed file stays as it is.  With an absent
file the list is empty, `findIndex` misses, and again nothing is
written. -/
def updateTask (file : LedgerFile) (taskId status : String)
    (endTime : Option Nat) : LedgerFile :=
  match file with
  | .absent => .absent
  | .malformed raw => .malformed raw
  | .wellFormed ts =>
      match ts.findIdx? (fun t => t.id == taskId) with
      | none => .wellFormed ts
      | some idx => .wellFormed (ts.modify (fun t => applyUpdate t status endTime) idx)

/-! ## Submission event order (src/ask-agent.tsx lines 99-117 and the
generated Docker runner script, lines 329-380)

`handleSubmit` writes the task record with status `running` and spawns
the detached runner; only the runner then checks `docker info`.  When
that check fails, the runner's catch handler logs the environment error
and updates the already-written record to `failed`. -/

/-- Observable actions of one submission, in program order. -/
inductive SubmitEvent
  | ledgerWrite (status : String)
  | runnerSpawn
  | dockerCheck (ok : Bool)
  | envErrorReport (msg : String)
  | agentRun
deriving DecidableEq

/-- Trace of the runner script (the generated `.runner-<id>.mjs`):
check `docker info`; on failure throw into the catch handler, which
reports the error and writes `failed`; on success run the agent and
write the terminal status. -/
def runnerTrace (dockerOk agentExitZero : Bool) : List SubmitEvent :=
  if dockerOk then
    [.dockerCheck true, .agentRun,
     .ledgerWrite (if agentExitZero then "completed" else "failed")]
  else
    [.dockerCheck false,
     .envErrorReport "Docker is not installed or not running",
     .ledgerWrite "failed"]

/-- Trace of a whole submission: `handleSubmit` writes the record with
status `running` and spawns the runner, then the runner runs. -/
def submitTrace (dockerOk agentExitZero : Bool) : List SubmitEvent :=
  .ledgerWrite "running" :: .runnerSpawn :: runnerTrace dockerOk agentExitZero

/-! ## Daytona remote-sandbox lifecycle (scripts/daytona-cli.ts `main`,
scripts/cli.ts lines 830-871)

`main` wraps the whole job in one `try`: create the sandbox, run every
push (each `pushFile` throws on a failed chunk), run the command if one
is configured (throwing on a non-zero exit), run every pull, and only
then — when `--keep` is not set — call `sandbox.delete()`.  The catch
handler prints the error and sets the process exit code to 1; it never
deletes the sandbox.  Step outcomes are abstracted to success flags. -/

/-- Outcomes of one Daytona job: success of each push, of the optional
command, of each pull, and the `--keep` flag. -/
structure DaytonaJobSpec where
  pushes : List Bool
  cmd : Option Bool
  pulls : List Bool
  keep : Bool

/-- Run a sequence of fallible steps, throwing on the first failure
(as the `for` loops over `pushFile`/`pullFile` do). -/
def runSteps : List Bool → Except String Unit
  | [] => Except.ok ()
  | ok :: rest => if ok then runSteps rest else Except.error "step failed"

/-- Run the optional `--cmd`, throwing when its exit code is non-zero. -/
def runCmdStep : Option Bool → Except String Unit
  | none => Except.ok ()
  | some ok => if ok then Except.ok () else Except.error "Command failed"

/-- The body of `main`'s `try` block; returns whether `sandbox.delete()`
was called. -/
def daytonaTryBody (j : DaytonaJobSpec) : Except String Bool := do
  runSteps j.pushes
  runCmdStep j.cmd
  runSteps j.pulls
  pure (!j.keep)

/-- `main` of `daytona-cli`: the catch handler turns any thrown error
into exit code 1 without reaching the delete call.  Returns
(sandbox deleted?, process exit code). -/
def daytonaMain (j : DaytonaJobSpec) : Bool × Nat :=
  match daytonaTryBody j with
  | .ok deleted => (deleted, 0)
  | .error _ => (false, 1)

/-! ## Chunked base64 file transfer (scripts/daytona-cli.ts
`pushFile` lines 776-793, `pullFile` lines 795-806)

Bytes are naturals below 256; the base64 alphabet is modelled by its
sextet values `0..63`, with `64` standing for the padding character
`=`.  `pushFile` base64-encodes the whole local content, slices the
encoding into chunks of `CHUNK_SIZE` characters, and appends the
decoding of each chunk to the (initially truncated) remote file;
`pullFile` base64-encodes the remote file on the sandbox side and
decodes the returned text locally (the 76-column line wrapping of the
`base64` command and the `trim()` of its trailing newline cancel out,
because Node's base64 decoder ignores the whitespace, and are elided
here). -/

def CHUNK_SIZE : Nat := 60000

/-- Encode one full 3-byte group into 4 sextets. -/
def b64EncodeGroup (b0 b1 b2 : Nat) : List Nat :=
  [b0 / 4, b0 % 4 * 16 + b1 / 16, b1 % 16 * 4 + b2 / 64, b2 % 64]

/-- Standard base64 encoding of a byte list, with padding. -/
def b64Encode : List Nat → List Nat
  | [] => []
  | [b0] => [b0 / 4, b0 % 4 * 16, 64, 64]
  | [b0, b1] => [b0 / 4, b0 % 4 * 16 + b1 / 16, b1 % 16 * 4, 64]
  | b0 :: b1 :: b2 :: rest => b64EncodeGroup b0 b1 b2 ++ b64Encode rest

/-- Standard base64 decoding: consume 4 characters at a time, stopping
at padding. -/
def b64Decode : List Nat → List Nat
  | c0 :: c1 :: c2 :: c3 :: rest =>
    if c2 = 64 then [c0 * 4 + c1 / 16]
    else if c3 = 64 then [c0 * 4 + c1 / 16, c1 % 16 * 16 + c2 / 4]
    else (c0 * 4 + c1 / 16) :: (c1 % 16 * 16 + c2 / 4) :: (c2 % 4 * 64 + c3) ::
         b64Decode rest
  | _ => []

/-- Slice a list into consecutive chunks of `n` elements
(`b64.slice(i, i + CHUNK_SIZE)` for `i = 0, n, 2n, ...`). -/
def chunksOf (n : Nat) (l : List α) : List (List α) :=
  if h : n = 0 ∨ l.length = 0 then [] else l.take n :: chunksOf n (l.drop n)
termination_by l.length
decreasing_by
  simp only [not_or] at h
  have hn : 0 < n := Nat.pos_of_ne_zero h.1
  have hl : 0 < l.length := Nat.pos_of_ne_zero h.2
  simp only [List.length_drop]
  omega

/-- The remote file content after `pushFile`: the remote file is
truncated to empty, then the decoding of each chunk of the base64
encoding is appended. -/
def pushFile (content : List Nat) : List Nat :=
  (chunksOf CHUNK_SIZE (b64Encode content)).foldl
    (fun acc chunk => acc ++ b64Decode chunk) []

/-- The local file content after `pullFile` of a remote file: the
sandbox base64-encodes the remote bytes and the host decodes the
returned text. -/
def pullFile (remote : List Nat) : List Nat :=
  b64Decode (b64Encode remote)

/-! ## Helper lemmas -/

theorem runSteps_ok_iff (l : List Bool) : runSteps l = Except.ok () ↔ l.all id = true := by
  induction l with
  | nil => simp [runSteps]
  | cons b rest ih => cases b <;> simp [runSteps, ih]

theorem runCmdStep_ok_iff (c : Option Bool) :
    runCmdStep c = Except.ok () ↔ c.getD true = true := by
  cases c with
  | none => simp [runCmdStep]
  | some ok => cases ok <;> simp [runCmdStep]

theorem lookup_append_isSome (a : String) (l₁ l₂ : ToolStore)
    (h : (l₁.lookup a).isSome) : (l₁ ++ l₂).lookup a = l₁.lookup a := by
  induction l₁ with
  | nil => simp at h
  | cons p rest ih =>
      cases p with
      | mk k v =>
          by_cases hk : a == k
          · simp [List.lookup_cons, hk]
          · simp only [Bool.not_eq_true] at hk
            simp only [List.cons_append, List.lookup_cons, hk] at h ⊢
            exact ih h

theorem lookup_append_single_ne (a b c : String) (l : ToolStore)
    (h : (a == b) = false) : (l ++ [(b, c)]).lookup a = l.lookup a := by
  induction l with
  | nil => simp [List.lookup_cons, h]
  | cons p rest ih =>
      cases p with
      | mk k v =>
          by_cases hk : a == k
          · simp [List.lookup_cons, hk]
          · simp only [Bool.not_eq_true] at hk
            simp only [List.cons_append, List.lookup_cons, hk]
            exact ih

theorem collectToolsStep_preserves (store : ToolStore) (f : WorkspaceFile)
    (name content : String) (h : store.lookup name = some content) :
    (collectToolsStep store f).lookup name = some content := by
  unfold collectToolsStep
  split_ifs with h1 h2 h3 h4
  · exact h
  · exact h
  · exact h
  · exact h
  · rw [lookup_append_isSome name store _ (by simp [h])]
    exact h

theorem collectToolsStep_excluded_lookup (store : ToolStore) (f : WorkspaceFile)
    (name : String) (h : isExcluded name = true) :
    (collectToolsStep store f).lookup name = store.lookup name := by
  unfold collectToolsStep
  split_ifs with h1 h2 h3 h4
  · rfl
  · rfl
  · rfl
  · rfl
  · have hne : name ≠ f.name := fun e => h1 (e ▸ h)
    exact lookup_append_single_ne name f.name f.content store
      (beq_eq_false_iff_ne.mpr hne)

theorem collectTools_excluded_lookup (ws : List WorkspaceFile) (store : ToolStore)
    (name : String) (h : isExcluded name = true) :
    (collectTools ws store).lookup name = store.lookup name := by
  induction ws generalizing store with
  | nil => rfl
  | cons f rest ih =>
      show (collectTools rest (collectToolsStep store f)).lookup name = _
      rw [ih (collectToolsStep store f), collectToolsStep_excluded_lookup store f name h]

/-! ## Claims about the process gateway (C1, C9) -/

/-- C1 counterexample: a run whose child is still alive at the timeout
(SIGTERM is sent, the child dies by the signal, the `close` event then
reports a `null` code) resolves with exactly the same result as a
successful run that exited with code `0` well before the timeout — the
timed-out result is not distinguishable from a successful one. -/
theorem runDocker_timeout_indistinguishable :
    (runDocker 1000 (.closed 1000 none) "out").2 = true ∧
    (runDocker 1000 (.closed 5 (some 0)) "out").2 = false ∧
    (runDocker 1000 (.closed 1000 none) "out").1 =
      (runDocker 1000 (.closed 5 (some 0)) "out").1 := by
  decide

/-- C1 (amended): for every run whose child has not exited when the
per-attempt timeout elapses, `runDocker` sends the termination signal
and still resolves with a result (bounded wait); but the resolved
result carries `exitCode = code || 0`, so it is not a timeout-flavored
result distinguishable from success. -/
theorem runDocker_timeout_bounded (timeoutMs closeAt : Nat) (code : Option Int)
    (output : String) (h : timeoutMs ≤ closeAt) :
    (runDocker timeoutMs (.closed closeAt code) output).2 = true ∧
    (runDocker timeoutMs (.closed closeAt code) output).1 =
      { exitCode := jsOrZero code, output := output } := by
  simp [runDocker, h]

/-- Witness for `runDocker_timeout_bounded` at timeout 100 ms and a
child closing at 150 ms with no numeric exit code. -/
theorem runDocker_timeout_bounded_witness :
    100 ≤ 150 ∧
    ((runDocker 100 (.closed 150 none) "o").2 = true ∧
     (runDocker 100 (.closed 150 none) "o").1 =
       { exitCode := jsOrZero none, output := "o" }) :=
  ⟨by decide, runDocker_timeout_bounded 100 150 none "o" (by decide)⟩

/-- C9: for every run whose child terminates without a numeric exit
code (Node reports `code = null`, e.g. after the timeout's SIGTERM),
`exitCode: code || 0` yields `0`, the job is recorded `completed`, and
tool harvesting runs as if the run had succeeded. -/
theorem runDocker_killed_counts_as_success (timeoutMs closeAt : Nat) (output : String) :
    (runDocker timeoutMs (.closed closeAt none) output).1.exitCode = 0 ∧
    jobOutcome (runDocker timeoutMs (.closed closeAt none) output).1 =
      ("completed", true) := by
  simp [runDocker, jsOrZero, jobOutcome]

/-! ## Claims about the submission order (C2) -/

/-- C2 counterexample: with the container runtime unavailable, the
submission trace still contains a ledger write with status `running`,
and that write is the very first event — before the runtime check and
before the environment-error report. -/
theorem submit_running_written_before_check :
    SubmitEvent.ledgerWrite "running" ∈ submitTrace false false ∧
    (submitTrace false false).head? = some (SubmitEvent.ledgerWrite "running") := by
  decide

/-- C2 (amended): the job record is written with status `running`
before the container-runtime check; when the runtime is unavailable the
runner reports the environment error only after that ledger write and
then updates the record to `failed`. -/
theorem submit_env_error_after_running_write (agentExitZero : Bool) :
    (submitTrace false agentExitZero).head? = some (SubmitEvent.ledgerWrite "running") ∧
    SubmitEvent.envErrorReport "Docker is not installed or not running" ∈
      submitTrace false agentExitZero ∧
    (submitTrace false agentExitZero).getLast? = some (SubmitEvent.ledgerWrite "failed") := by
  cases agentExitZero <;> decide

/-! ## Claims about the Daytona sandbox lifecycle (C3) -/

/-- C3 counterexample: a job without the keep flag whose single push
fails ends with exit code 1 and the sandbox delete call never
performed — destruction does not run when the job fails. -/
theorem daytona_no_delete_on_failed_push :
    (daytonaMain ⟨[false], none, [], false⟩).1 = false ∧
    (daytonaMain ⟨[false], none, [], false⟩).2 = 1 := by
  decide

/-- C3 (amended): the sandbox delete call is performed iff every push,
the configured command, and every pull succeed and the keep flag is not
set; any step failure jumps to the catch handler, which skips
destruction. -/
theorem daytonaMain_deleted_iff (j : DaytonaJobSpec) :
    (daytonaMain j).1 = true ↔
      (j.pushes.all id = true ∧ j.cmd.getD true = true ∧
       j.pulls.all id = true ∧ j.keep = false) := by
  have hp := runSteps_ok_iff j.pushes
  have hc := runCmdStep_ok_iff j.cmd
  have hl := runSteps_ok_iff j.pulls
  unfold daytonaMain daytonaTryBody
  rcases e1 : runSteps j.pushes with e | u
  · rw [e1] at hp
    simp only [bind, Except.bind]
    simp [← hp]
  · cases u
    rw [e1] at hp
    rcases e2 : runCmdStep j.cmd with e | u
    · rw [e2] at hc
      simp only [bind, Except.bind]
      simp [← hp, ← hc]
    · cases u
      rw [e2] at hc
      rcases e3 : runSteps j.pulls with e | u
      · rw [e3] at hl
        simp only [bind, Except.bind]
        simp [← hp, ← hc, ← hl]
      · cases u
        rw [e3] at hl
        simp only [bind, Except.bind, pure, Except.pure]
        simp [← hp, ← hc, ← hl, Bool.not_eq_true']

/-! ## Claims about the retry policy (C5) and refusal detection (C6) -/

/-- C5: the agent is run at most twice; the fallback attempt happens
exactly when a fallback model is configured (non-empty
`retryModelName`) and the primary output matches a refusal signature,
so with no fallback model configured the single attempt is terminal,
and no third attempt exists even when the fallback output is itself a
refusal. -/
theorem mainAttempts_retry_policy (modelName retryModelName : String)
    (runOf : String → RunResult) :
    ((mainAttempts modelName retryModelName runOf).1.length = 1 ∨
     (mainAttempts modelName retryModelName runOf).1.length = 2) ∧
    ((mainAttempts modelName retryModelName runOf).1.length = 2 ↔
      (retryModelName ≠ "" ∧
       detectRefusal (runOf ("openrouter/" ++ modelName)).output = true)) := by
  by_cases h : retryModelName ≠ "" ∧
      detectRefusal (runOf ("openrouter/" ++ modelName)).output = true
  · simp [mainAttempts, h]
  · simp [mainAttempts, h]

/-- C6: `detectRefusal` classifies an output as a refusal iff the
lower-cased output contains some lower-cased signature of the fixed
list as a substring; in particular an output containing
`I CANNOT ASSIST` is classified as a refusal. -/
theorem detectRefusal_substring_spec :
    (∀ output : String, detectRefusal output = true ↔
       ∃ p ∈ REFUSAL_PATTERNS,
         strIncludes (toLowerData output) (toLowerData p) = true) ∧
    detectRefusal "Sorry, I CANNOT ASSIST with that request." = true := by
  constructor
  · intro output
    simp [detectRefusal, List.any_eq_true]
  · decide

/-! ## Claims about the ledger (C8) -/

/-- C8 counterexample: `updateTask` on a ledger file with malformed
content leaves the file byte-for-byte as it was — the malformed
collection is not replaced by any well-formed new state, so the update
operation does not overwrite the file with the new state. -/
theorem updateTask_malformed_no_overwrite :
    updateTask (.malformed "not json") "1" "failed" (some 5) =
      .malformed "not json" ∧
    updateTask (.malformed "not json") "1" "failed" (some 5) ≠
      LedgerFile.wellFormed [] := by
  decide

/-- C8 (amended): on a malformed ledger file neither operation fails;
the create operation treats the collection as empty and overwrites the
file with just the new record (lossy recovery), while the update
operation swallows the parse error and performs no write at all,
leaving the malformed content in place. -/
theorem ledger_malformed_recovery :
    (∀ (raw : String) (rec : TaskRec),
       createTask (.malformed raw) rec = .wellFormed [rec]) ∧
    (∀ (raw taskId status : String) (endTime : Option Nat),
       updateTask (.malformed raw) taskId status endTime = .malformed raw) :=
  ⟨fun _ _ => rfl, fun _ _ _ _ => rfl⟩

/-! ## Claims about tool harvesting (C7, C10) -/

/-- C7: harvesting never overwrites a tool-store entry: an entry
already present under a base name keeps its content across
`collectTools`, even when a workspace file of the same name carries
different content — first write wins. -/
theorem collectTools_first_write_wins (ws : List WorkspaceFile) (store : ToolStore)
    (name content : String) (h : store.lookup name = some content) :
    (collectTools ws store).lookup name = some content := by
  induction ws generalizing store with
  | nil => exact h
  | cons f rest ih =>
      show (collectTools rest (collectToolsStep store f)).lookup name = _
      exact ih _ (collectToolsStep_preserves store f name content h)

/-- Witness for `collectTools_first_write_wins`: a store holding
`tool.py ↦ old` is unchanged by harvesting a workspace file `tool.py`
with different content. -/
theorem collectTools_first_write_wins_witness :
    (([("tool.py", "old")] : ToolStore).lookup "tool.py" = some "old") ∧
    (collectTools [⟨"tool.py", "new", true⟩]
        [("tool.py", "old")]).lookup "tool.py" = some "old" :=
  ⟨by decide, collectTools_first_write_wins _ _ _ _ (by decide)⟩

/-- C10: harvest exclusion is substring containment anywhere in the
filename: a name containing an exclude pattern at any position is never
copied into the tool store (its store binding is exactly what it was),
even when the name ends in an allow-listed extension — in particular
`my.github-helper.py` contains `.git` and has extension `.py`, and is
skipped. -/
theorem harvest_exclusion_substring (ws : List WorkspaceFile) (store : ToolStore)
    (name : String) (h : isExcluded name = true) :
    (collectTools ws store).lookup name = store.lookup name ∧
    isExcluded "my.github-helper.py" = true ∧
    isToolFile "my.github-helper.py" = true :=
  ⟨collectTools_excluded_lookup ws store name h, by decide, by decide⟩

/-- Witness for `harvest_exclusion_substring`: harvesting a workspace
holding only `my.github-helper.py` adds nothing to an empty store. -/
theorem harvest_exclusion_substring_witness :
    isExcluded "my.github-helper.py" = true ∧
    ((collectTools [⟨"my.github-helper.py", "print(1)", true⟩]
        []).lookup "my.github-helper.py" =
       ([] : ToolStore).lookup "my.github-helper.py" ∧
     isExcluded "my.github-helper.py" = true ∧
     isToolFile "my.github-helper.py" = true) :=
  ⟨by decide, harvest_exclusion_substring _ _ _ (by decide)⟩

/-! ## Base64 transfer lemmas (C4) -/

theorem b64Encode_length : ∀ l : List Nat,
    (b64Encode l).length = 4 * ((l.length + 2) / 3)
  | [] => by simp [b64Encode]
  | [_] => by simp [b64Encode]
  | [_, _] => by simp [b64Encode]
  | b0 :: b1 :: b2 :: rest => by
      have ih := b64Encode_length rest
      simp only [b64Encode, b64EncodeGroup, List.length_append, List.length_cons,
        List.length_nil, ih]
      omega

theorem b64Encode_append : ∀ (a b : List Nat), a.length % 3 = 0 →
    b64Encode (a ++ b) = b64Encode a ++ b64Encode b
  | [], _, _ => by simp [b64Encode]
  | [_], _, h => by simp at h
  | [_, _], _, h => by simp at h
  | a0 :: a1 :: a2 :: rest, b, h => by
      have ih := b64Encode_append rest b (by simp at h; omega)
      simp [b64Encode, ih]

theorem b64Decode_encode : ∀ l : List Nat, (∀ x ∈ l, x < 256) →
    b64Decode (b64Encode l) = l
  | [], _ => by simp [b64Encode, b64Decode]
  | [b0], _ => by
      simp only [b64Encode, b64Decode, if_true, eq_self_iff_true,
        List.cons.injEq, and_true]
      omega
  | [b0, b1], h => by
      have hb1 : b1 < 256 := h b1 (by simp)
      have hc2 : ¬ (b1 % 16 * 4 = 64) := by omega
      simp only [b64Encode, b64Decode, if_neg hc2, if_true, eq_self_iff_true,
        List.cons.injEq, and_true]
      omega
  | b0 :: b1 :: b2 :: rest, h => by
      have hb1 : b1 < 256 := h b1 (by simp)
      have hb2 : b2 < 256 := h b2 (by simp)
      have ih := b64Decode_encode rest (fun x hx => h x (by simp [hx]))
      have hd : b1 / 16 < 16 := by omega
      have hq : b2 / 64 < 4 := by omega
      have hc2 : ¬ (b1 % 16 * 4 + b2 / 64 = 64) := by omega
      have hc3 : ¬ (b2 % 64 = 64) := by omega
      have e1 : (b0 % 4 * 16 + b1 / 16) / 16 = b0 % 4 := by
        rw [Nat.add_comm, Nat.add_mul_div_right _ _ (by norm_num : (0:Nat) < 16),
          Nat.div_eq_of_lt hd, Nat.zero_add]
      have e2 : (b0 % 4 * 16 + b1 / 16) % 16 = b1 / 16 := by
        rw [Nat.add_comm, Nat.add_mul_mod_self_right, Nat.mod_eq_of_lt hd]
      have e3 : (b1 % 16 * 4 + b2 / 64) / 4 = b1 % 16 := by
        rw [Nat.add_comm, Nat.add_mul_div_right _ _ (by norm_num : (0:Nat) < 4),
          Nat.div_eq_of_lt hq, Nat.zero_add]
      have e4 : (b1 % 16 * 4 + b2 / 64) % 4 = b2 / 64 := by
        rw [Nat.add_comm, Nat.add_mul_mod_self_right, Nat.mod_eq_of_lt hq]
      simp only [b64Encode, b64EncodeGroup, List.append_eq, List.cons_append,
        List.nil_append, b64Decode, if_neg hc2, if_neg hc3, ih,
        List.cons.injEq, and_true, e1, e2, e3, e4]
      refine ⟨?_, ?_, ?_⟩
      · clear e1 e2 e3 e4 hc2 hc3
        omega
      · clear e1 e2 e3 e4 hc2 hc3
        omega
      · clear e1 e2 e3 e4 hc2 hc3
        omega

theorem chunksOf_nil (n : Nat) : chunksOf n ([] : List α) = [] := by
  rw [chunksOf]
  simp

theorem chunksOf_eq_cons (n : Nat) (l : List α) (hn : n ≠ 0) (hl : l.length ≠ 0) :
    chunksOf n l = l.take n :: chunksOf n (l.drop n) := by
  rw [chunksOf]
  simp [hn, hl]

theorem foldl_append_eq_join (f : List Nat → List Nat) :
    ∀ (cs : List (List Nat)) (init : List Nat),
      cs.foldl (fun acc c => acc ++ f c) init = init ++ (cs.map f).flatten
  | [], init => by simp
  | c :: cs, init => by
      simp [foldl_append_eq_join f cs, List.append_assoc]

/-- Decoding the `4 * q`-character chunks of a base64 encoding one by
one and concatenating recovers the original bytes: every chunk
boundary falls on a whole-group boundary, so chunkwise decoding agrees
with decoding the whole encoding. -/
theorem joinMap_decode_chunks (q : Nat) (hq : 0 < q) :
    ∀ l : List Nat, (∀ x ∈ l, x < 256) →
      ((chunksOf (4 * q) (b64Encode l)).map b64Decode).flatten = l
  | l, h => by
      by_cases hnil : l.length = 0
      · rw [List.length_eq_zero] at hnil
        subst hnil
        simp [b64Encode, chunksOf_nil]
      · have hlen := b64Encode_length l
        have henc : (b64Encode l).length ≠ 0 := by omega
        by_cases hsmall : l.length ≤ 3 * q
        · have htake : (b64Encode l).take (4 * q) = b64Encode l :=
            List.take_of_length_le (by omega)
          have hdrop : (b64Encode l).drop (4 * q) = [] :=
            List.drop_eq_nil_of_le (by omega)
          rw [chunksOf_eq_cons _ _ (by omega) henc, htake, hdrop, chunksOf_nil]
          simp [b64Decode_encode l h]
        · have hsplit : l.take (3 * q) ++ l.drop (3 * q) = l := List.take_append_drop _ l
          have htl : (l.take (3 * q)).length = 3 * q := by
            rw [List.length_take]
            omega
          have hsplitenc : b64Encode l =
              b64Encode (l.take (3 * q)) ++ b64Encode (l.drop (3 * q)) := by
            conv_lhs => rw [← hsplit]
            exact b64Encode_append _ _ (by rw [htl]; omega)
          have htenc : (b64Encode (l.take (3 * q))).length = 4 * q := by
            rw [b64Encode_length, htl]
            omega
          have htake : (b64Encode l).take (4 * q) = b64Encode (l.take (3 * q)) := by
            rw [hsplitenc]
            exact List.take_left' htenc
          have hdrop : (b64Encode l).drop (4 * q) = b64Encode (l.drop (3 * q)) := by
            rw [hsplitenc]
            exact List.drop_left' htenc
          have ih := joinMap_decode_chunks q hq (l.drop (3 * q))
            (fun x hx => h x (List.mem_of_mem_drop hx))
          rw [chunksOf_eq_cons _ _ (by omega) henc, htake, hdrop]
          simp only [List.map_cons, List.flatten_cons, ih]
          rw [b64Decode_encode _ (fun x hx => h x (List.mem_of_mem_take hx)), hsplit]
  termination_by l => l.length
  decreasing_by
    simp only [List.length_drop]
    omega

/-- The remote content after a chunked push equals the pushed bytes. -/
theorem pushFile_eq (content : List Nat) (h : ∀ x ∈ content, x < 256) :
    pushFile content = content := by
  unfold pushFile
  rw [foldl_append_eq_join, List.nil_append,
    show CHUNK_SIZE = 4 * 15000 from rfl]
  exact joinMap_decode_chunks 15000 (by norm_num) content h

/-! ## Claim about the transfer protocol (C4) -/

/-- C4: pushing any local byte content through the chunked base64
protocol and pulling the same remote path back yields byte-identical
content — for every payload, in particular for sizes 0, 1, exactly one
chunk (60000 base64 characters, 45000 bytes) and one chunk plus one. -/
theorem push_pull_roundtrip (content : List Nat) (h : ∀ x ∈ content, x < 256) :
    pullFile (pushFile content) = content := by
  rw [pushFile_eq content h]
  exact b64Decode_encode content h

/-- Witness for `push_pull_roundtrip` at payload sizes 0, 1, exactly
one chunk (45000 bytes) and one chunk plus one (45001 bytes). -/
theorem push_pull_roundtrip_witness :
    (∀ x ∈ List.replicate 45001 (65 : Nat), x < 256) ∧
    pullFile (pushFile ([] : List Nat)) = [] ∧
    pullFile (pushFile [7]) = [7] ∧
    pullFile (pushFile (List.replicate 45000 (66 : Nat))) =
      List.replicate 45000 (66 : Nat) ∧
    pullFile (pushFile (List.replicate 45001 (65 : Nat))) =
      List.replicate 45001 (65 : Nat) := by
  have h65 : ∀ x ∈ List.replicate 45001 (65 : Nat), x < 256 := by
    intro x hx
    rw [List.eq_of_mem_replicate hx]
    norm_num
  have h66 : ∀ x ∈ List.replicate 45000 (66 : Nat), x < 256 := by
    intro x hx
    rw [List.eq_of_mem_replicate hx]
    norm_num
  exact ⟨h65, push_pull_roundtrip [] (by simp),
    push_pull_roundtrip [7] (by simp),
    push_pull_roundtrip _ h66, push_pull_roundtrip _ h65⟩
